import Mathlib

/-!
Verification of the natural-language specification of the ezy_parking data
cleaning pipeline (clean_data.py) against a shallow embedding of its code.

The embedding models:
* Python strings as lists of characters (ASCII operations, matching the
  declared input domain of the cleaners);
* Python missing values (None / NaN) as Option;
* Python exceptions as Except Unit, with try/except blocks modelled by an
  explicit match on the body result (so that totality claims are about the
  placement of the catch, not vacuously true);
* pandas columns as Lean lists, pandas row-wise operations as List.map,
  drop_duplicates as an explicit first-occurrence scan, iloc with stride 3 as
  a recursive every-third selection;
* shapely geometries abstractly, via a type parameter together with a boolean
  intersection predicate (the spatial predicate of geopandas sjoin);
* the CPython strptime formats used by the code (%I:%M %p, %I%p, %I:%M%p) by
  character-level parsers that follow the regexes CPython compiles for these
  directives, including the alternative order (1[0-2] | 0[1-9] | [1-9] for %I,
  [0-5]\d | \d for %M) and the full-match requirement;
* IEEE float arithmetic in the time-limit parser by exact rational
  arithmetic (the only float operation is multiplying the parsed decimal
  by 60 before truncating).
-/

/-! ### Python string primitives -/

/-- Whitespace characters recognised by Python str.strip and the regex \s
(ASCII fragment). -/
def isSpaceChar (c : Char) : Bool :=
  c.toNat = 32 || c.toNat = 9 || c.toNat = 10 || c.toNat = 13 ||
  c.toNat = 11 || c.toNat = 12

/-- Python str.strip(): drop whitespace from both ends. -/
def pyStrip (cs : List Char) : List Char :=
  ((cs.dropWhile isSpaceChar).reverse.dropWhile isSpaceChar).reverse

/-- Python str.upper() on the ASCII fragment. -/
def pyUpper (cs : List Char) : List Char := cs.map Char.toUpper

/-- Python str.lower() on the ASCII fragment. -/
def pyLower (cs : List Char) : List Char := cs.map Char.toLower

/-- Python substring containment (the in operator on strings). -/
def isSubstrOf (needle : List Char) : List Char → Bool
  | [] => needle.isEmpty
  | c :: t => needle.isPrefixOf (c :: t) || isSubstrOf needle t

/-- Helper for pySplitWS: accumulates the current token (reversed). -/
def splitWSAux : List Char → List Char → List (List Char)
  | [], cur => if cur.isEmpty then [] else [cur.reverse]
  | c :: t, cur =>
    if isSpaceChar c then
      if cur.isEmpty then splitWSAux t [] else cur.reverse :: splitWSAux t []
    else splitWSAux t (c :: cur)

/-- Python str.split() with no arguments: split on whitespace runs, dropping
empty tokens. -/
def pySplitWS (cs : List Char) : List (List Char) := splitWSAux cs []

/-- ASCII decimal digit test (regex \d, Python str.isdigit on ASCII). -/
def isDigitChar (c : Char) : Bool := 48 ≤ c.toNat && c.toNat ≤ 57

/-- Numeric value of an ASCII digit character. -/
def digitVal (c : Char) : Nat := c.toNat - 48

/-- Python str.isdigit(): nonempty and all digits. -/
def pyIsDigitStr (cs : List Char) : Bool := !cs.isEmpty && cs.all isDigitChar

/-- Value of a string of ASCII digits (Python int on a digit string). -/
def digitsToNat (ds : List Char) : Nat := ds.foldl (fun a c => 10 * a + digitVal c) 0

/-- First match of the regex \d+ in a string (first maximal digit run), as
used by re.findall(r'\d+', s)[0]. -/
def firstDigitRun : List Char → Option (List Char)
  | [] => none
  | c :: t =>
    if isDigitChar c then some ((c :: t).takeWhile isDigitChar)
    else firstDigitRun t

/-- First match of the regex \d+\.?\d* in a string, split as
(integer part value, fractional digit characters). A match must start with a
digit, so scanning to the first digit position is equivalent to regex search. -/
def firstDecimal : List Char → Option (Nat × List Char)
  | [] => none
  | c :: t =>
    if isDigitChar c then
      let ip := (c :: t).takeWhile isDigitChar
      match (c :: t).dropWhile isDigitChar with
      | '.' :: r => some (digitsToNat ip, r.takeWhile isDigitChar)
      | _ => some (digitsToNat ip, [])
    else firstDecimal t

/-! ### Normalizer: _parse_time_limit -/

/-- Exact value of int(hours * 60) where hours is the decimal number with
integer part ip and fractional digits fds: the number is nonnegative, so
Python int() truncation is the floor, computed in exact arithmetic as
60 * ip + (60 * frac) / 10 ^ (number of fractional digits). -/
def minutesOfDecimal (ip : Nat) (fds : List Char) : Nat :=
  60 * ip + 60 * digitsToNat fds / 10 ^ fds.length

/-- The try-block of _parse_time_limit. Indexing an empty findall result
raises IndexError, modelled as Except.error. -/
def parse_time_limit_body (cs : List Char) : Except Unit (Option Nat) :=
  if isSubstrOf "hour".data cs then
    match firstDecimal cs with
    | none => .error ()
    | some p => .ok (some (minutesOfDecimal p.1 p.2))
  else if isSubstrOf "min".data cs then
    match firstDigitRun cs with
    | none => .error ()
    | some ds => .ok (some (digitsToNat ds))
  else if pyIsDigitStr cs then .ok (some (digitsToNat cs))
  else .ok none

/-- The source helper _parse_time_limit with its exception behaviour explicit: the isna / empty
check and str(...).lower().strip() happen outside the try block (and cannot
raise); the try/except around the body turns any error into None. -/
def parse_time_limitE (x : Option String) : Except Unit (Option Nat) :=
  match x with
  | none => .ok none
  | some s =>
    if s = "" then .ok none
    else
      match parse_time_limit_body (pyStrip (pyLower s.data)) with
      | .ok r => .ok r
      | .error _ => .ok none

/-- The source helper _parse_time_limit as the Option-valued function the cleaner applies. -/
def parse_time_limit (x : Option String) : Option Nat :=
  match parse_time_limitE x with
  | .ok r => r
  | .error _ => none

/-! ### Normalizer: _clean_currency -/

/-- Python float() on a string containing only digits and dots (the output of
re.sub(r'[^\d.]', '', s)): at most one dot and at least one digit overall;
otherwise ValueError. -/
def pyFloatE (cs : List Char) : Except Unit ℚ :=
  match cs.splitOn '.' with
  | [ds] =>
    if !ds.isEmpty && ds.all isDigitChar then .ok (digitsToNat ds : ℚ)
    else .error ()
  | [a, b] =>
    if (!a.isEmpty || !b.isEmpty) && a.all isDigitChar && b.all isDigitChar then
      .ok ((digitsToNat a : ℚ) + (digitsToNat b : ℚ) / 10 ^ b.length)
    else .error ()
  | _ => .error ()

/-- The source helper _clean_currency with explicit exception behaviour: isna check outside the
try block; the try wraps the regex substitution and float conversion. -/
def clean_currencyE (x : Option String) : Except Unit (Option ℚ) :=
  match x with
  | none => .ok none
  | some s =>
    let cleaned := s.data.filter (fun c => isDigitChar c || c = '.')
    if cleaned.isEmpty then .ok none
    else
      match pyFloatE cleaned with
      | .ok q => .ok (some q)
      | .error _ => .ok none

/-- The source helper _clean_currency as the Option-valued function. -/
def clean_currency (x : Option String) : Option ℚ :=
  match clean_currencyE x with
  | .ok r => r
  | .error _ => none

/-! ### Normalizer: _clean_capacity -/

/-- The source helper _clean_capacity with explicit exception behaviour: the indexing of the
findall result is guarded by the conditional expression, so the try-block body
cannot raise. -/
def clean_capacityE (x : Option String) : Except Unit (Option Nat) :=
  match x with
  | none => .ok none
  | some s =>
    match firstDigitRun s.data with
    | some ds => .ok (some (digitsToNat ds))
    | none => .ok none

/-- The source helper _clean_capacity as the Option-valued function. -/
def clean_capacity (x : Option String) : Option Nat :=
  match clean_capacityE x with
  | .ok r => r
  | .error _ => none

/-! ### Normalizer: _categorize_price -/

/-- The source helper _categorize_price: no try block in the source, and no raising operation on
its declared domain (a float rate or missing). -/
def categorize_priceE (x : Option ℚ) : Except Unit String :=
  match x with
  | none => .ok "FREE"
  | some r =>
    if r = 0 then .ok "FREE"
    else if r < 2 then .ok "LOW"
    else if r < 4 then .ok "MEDIUM"
    else .ok "HIGH"

/-- The source helper _categorize_price as the plain function. -/
def categorize_price (x : Option ℚ) : String :=
  match categorize_priceE x with
  | .ok r => r
  | .error _ => "FREE"

/-! ### Normalizer: _standardize_time, with the CPython strptime model -/

/-- Candidates for the strptime directive %I (12-hour hour), in the order of
the CPython regex alternation 1[0-2] | 0[1-9] | [1-9]; each candidate is the
parsed value and the remaining input. -/
def hourCands : List Char → List (Nat × List Char)
  | [] => []
  | [c1] =>
    if 49 ≤ c1.toNat ∧ c1.toNat ≤ 57 then [(digitVal c1, [])] else []
  | c1 :: c2 :: rest =>
    (if c1.toNat = 49 ∧ 48 ≤ c2.toNat ∧ c2.toNat ≤ 50 then
      [(10 + digitVal c2, rest)] else [])
    ++ (if c1.toNat = 48 ∧ 49 ≤ c2.toNat ∧ c2.toNat ≤ 57 then
      [(digitVal c2, rest)] else [])
    ++ (if 49 ≤ c1.toNat ∧ c1.toNat ≤ 57 then
      [(digitVal c1, c2 :: rest)] else [])

/-- Candidates for the strptime directive %M (minute), in the order of the
CPython regex alternation [0-5]\d | \d. -/
def minuteCands : List Char → List (Nat × List Char)
  | [] => []
  | [c1] =>
    if 48 ≤ c1.toNat ∧ c1.toNat ≤ 57 then [(digitVal c1, [])] else []
  | c1 :: c2 :: rest =>
    (if 48 ≤ c1.toNat ∧ c1.toNat ≤ 53 ∧ 48 ≤ c2.toNat ∧ c2.toNat ≤ 57 then
      [(10 * digitVal c1 + digitVal c2, rest)] else [])
    ++ (if 48 ≤ c1.toNat ∧ c1.toNat ≤ 57 then
      [(digitVal c1, c2 :: rest)] else [])

/-- The strptime directive %p on the upper-cased input: AM or PM, returning
whether it is PM and the remaining input. -/
def ampmCand : List Char → Option (Bool × List Char)
  | 'A' :: 'M' :: r => some (false, r)
  | 'P' :: 'M' :: r => some (true, r)
  | _ => none

/-- Try each parse candidate in order with the continuation k, taking the
first success (regex alternation with backtracking). -/
def firstSome {α : Type} (cands : List (Nat × List Char))
    (k : Nat → List Char → Option α) : Option α :=
  match cands with
  | [] => none
  | (v, r) :: t =>
    match k v r with
    | some x => some x
    | none => firstSome t k

/-- Conversion of a 12-hour hour plus AM/PM flag to the 24-hour hour, as
performed by datetime.strptime. -/
def to24 (h12 : Nat) (pm : Bool) : Nat :=
  if h12 = 12 then (if pm then 12 else 0) else (if pm then h12 + 12 else h12)

/-- Format '%I:%M %p': hour, ':', minute, one-or-more whitespace (a blank in a
strptime format matches \s+), AM/PM, end of string. Returns the 24-hour hour
and the minute. -/
def fmtColonSpace (cs : List Char) : Option (Nat × Nat) :=
  firstSome (hourCands cs) (fun h r1 =>
    match r1 with
    | [] => none
    | c :: r2 =>
      if c = ':' then
        firstSome (minuteCands r2) (fun m r3 =>
          if (r3.takeWhile isSpaceChar).isEmpty then none
          else
            match ampmCand (r3.dropWhile isSpaceChar) with
            | some pr => if pr.2.isEmpty then some (to24 h pr.1, m) else none
            | none => none)
      else none)

/-- Format '%I%p': hour, AM/PM, end of string; the minute defaults to 0. -/
def fmtHourOnly (cs : List Char) : Option (Nat × Nat) :=
  firstSome (hourCands cs) (fun h r =>
    match ampmCand r with
    | some pr => if pr.2.isEmpty then some (to24 h pr.1, 0) else none
    | none => none)

/-- Format '%I:%M%p': hour, ':', minute, AM/PM, end of string. -/
def fmtColonTight (cs : List Char) : Option (Nat × Nat) :=
  firstSome (hourCands cs) (fun h r1 =>
    match r1 with
    | [] => none
    | c :: r2 =>
      if c = ':' then
        firstSome (minuteCands r2) (fun m r3 =>
          match ampmCand r3 with
          | some pr => if pr.2.isEmpty then some (to24 h pr.1, m) else none
          | none => none)
      else none)

/-- The for-loop over the ordered formats ['%I:%M %p', '%I%p', '%I:%M%p'],
each strptime call wrapped in its own try/except which continues on failure;
the first successful parse is returned. -/
def tryFormats (cs : List Char) : Option (Nat × Nat) :=
  match fmtColonSpace cs with
  | some p => some p
  | none =>
    match fmtHourOnly cs with
    | some p => some p
    | none => fmtColonTight cs

/-- Zero-padded two-digit rendering of a number below 100 (strftime %H / %M). -/
def dchar : Nat → Char
  | 0 => '0' | 1 => '1' | 2 => '2' | 3 => '3' | 4 => '4'
  | 5 => '5' | 6 => '6' | 7 => '7' | 8 => '8' | 9 => '9'
  | _ => '?'

/-- Two-digit zero-padded digits of n (n < 100 in every use). -/
def pad2 (n : Nat) : List Char := [dchar (n / 10), dchar (n % 10)]

/-- parsed.strftime('%H:%M'). -/
def fmtHM (h m : Nat) : List Char := pad2 h ++ ':' :: pad2 m

/-- The try-block of _standardize_time: if the (stripped, upper-cased) string
contains AM or PM, try the three formats and return the first success
reformatted; a string that contains AM/PM but matches no format falls through
to the colon branch. If the string contains a colon, return the first
whitespace-delimited token (split()[0]; IndexError on an all-whitespace string
would be caught by the outer except). If no branch returns, the function
returns None after the try block. -/
def standardize_time_body (cs : List Char) : Except Unit (Option (List Char)) :=
  if isSubstrOf "AM".data cs || isSubstrOf "PM".data cs then
    match tryFormats cs with
    | some p => .ok (some (fmtHM p.1 p.2))
    | none =>
      if cs.contains ':' then
        match pySplitWS cs with
        | [] => .error ()
        | t :: _ => .ok (some t)
      else .ok none
  else
    if cs.contains ':' then
      match pySplitWS cs with
      | [] => .error ()
      | t :: _ => .ok (some t)
    else .ok none

/-- The source helper _standardize_time with explicit exception behaviour: the isna check and
str(...).strip().upper() are outside the try block and cannot raise; the
try/except around the body turns any error into None. -/
def standardize_timeE (x : Option String) : Except Unit (Option String) :=
  match x with
  | none => .ok none
  | some s =>
    match standardize_time_body (pyUpper (pyStrip s.data)) with
    | .ok r => .ok (r.map String.mk)
    | .error _ => .ok none

/-- The source helper _standardize_time as the Option-valued function. -/
def standardize_time (x : Option String) : Option String :=
  match standardize_timeE x with
  | .ok r => r
  | .error _ => none

/-! ### Sanity examples for the normalizer embedding (spec §8 test vectors) -/

example : parse_time_limit (some "2 hours") = some 120 := by decide
example : parse_time_limit (some "45 min") = some 45 := by decide
example : parse_time_limit (some "30") = some 30 := by decide
example : parse_time_limit (some "garbage") = none := by decide
example : parse_time_limit (some "1.5 hours") = some 90 := by decide
example : standardize_time (some "2:30 PM") = some "14:30" := by decide
example : standardize_time (some "9AM") = some "09:00" := by decide
example : standardize_time (some "14:30") = some "14:30" := by decide
example : standardize_time (some "12AM") = some "00:00" := by decide
example : standardize_time none = none := by decide
example : clean_capacity (some "approx 120 spaces") = some 120 := by decide
example : categorize_price (some 3) = "MEDIUM" := by decide

/-! ### Claim C4: the time-limit parser -/

/-- The time-limit parser as described by the specification: lower-case and
trim; if the string contains "hour", the first decimal number times 60,
rounded down (stated with an exact rational floor); else if it contains "min",
the first integer; else if the whole string is digits, that integer; otherwise
(including any parse failure and absent input) absent. -/
def parse_time_limit_spec (x : Option String) : Option Nat :=
  match x with
  | none => none
  | some s =>
    let cs := pyStrip (pyLower s.data)
    if isSubstrOf "hour".data cs then
      (firstDecimal cs).map (fun p =>
        ⌊(((p.1 : ℚ) + (digitsToNat p.2 : ℚ) / 10 ^ p.2.length) * 60)⌋₊)
    else if isSubstrOf "min".data cs then
      (firstDigitRun cs).map digitsToNat
    else if pyIsDigitStr cs then some (digitsToNat cs)
    else none

/-- The integer-arithmetic truncation used in the embedding agrees with the
exact rational floor of (decimal value) * 60. -/
theorem minutesOfDecimal_eq (ip : Nat) (fds : List Char) :
    minutesOfDecimal ip fds
      = ⌊(((ip : ℚ) + (digitsToNat fds : ℚ) / 10 ^ fds.length) * 60)⌋₊ := by
  have h1 : (((ip : ℚ) + (digitsToNat fds : ℚ) / 10 ^ fds.length) * 60)
      = ((60 * digitsToNat fds : ℕ) : ℚ) / ((10 ^ fds.length : ℕ) : ℚ)
        + ((60 * ip : ℕ) : ℚ) := by
    push_cast
    ring
  rw [h1, Nat.floor_add_nat (by positivity), Nat.floor_div_eq_div]
  unfold minutesOfDecimal
  omega

/-- Claim C4: the time-limit parser lower-cases and trims; a string containing
"hour" yields the first decimal number times 60 rounded down; else one
containing "min" yields the first integer; else an all-digit string yields its
value; otherwise (parse failures and absent input included) the result is
absent; and the spec's concrete examples hold. -/
theorem parse_time_limit_correct :
    (∀ x, parse_time_limit x = parse_time_limit_spec x)
    ∧ parse_time_limit (some "2 hours") = some 120
    ∧ parse_time_limit (some "45 min") = some 45
    ∧ parse_time_limit (some "30") = some 30
    ∧ parse_time_limit (some "garbage") = none := by
  refine ⟨?_, by decide, by decide, by decide, by decide⟩
  intro x
  cases x with
  | none => rfl
  | some s =>
    simp only [parse_time_limit, parse_time_limitE, parse_time_limit_spec]
    by_cases hs : s = ""
    · subst hs; decide
    · rw [if_neg hs]
      unfold parse_time_limit_body
      dsimp only
      split_ifs with h1 h2 h3
      · cases hfd : firstDecimal (pyStrip (pyLower s.data)) with
        | none => simp
        | some p => simp [minutesOfDecimal_eq]
      · cases hfr : firstDigitRun (pyStrip (pyLower s.data)) with
        | none => simp
        | some ds => simp
      · rfl
      · rfl

/-! ### Claim C5: totality of the field normalizers -/

/-- Claim C5: every field normalizer (currency cleaner, time-limit parser,
time standardizer, price bucketizer, capacity extractor) is total over its
declared input domain: on every input, including the absent value, the
explicit-exception embedding returns a value (an Option result) and never
propagates an error. -/
theorem normalizers_total (c t s v : Option String) (p : Option ℚ) :
    (clean_currencyE c).isOk = true
    ∧ (parse_time_limitE t).isOk = true
    ∧ (standardize_timeE s).isOk = true
    ∧ (categorize_priceE p).isOk = true
    ∧ (clean_capacityE v).isOk = true := by
  refine ⟨?_, ?_, ?_, ?_, ?_⟩
  · cases c with
    | none => rfl
    | some s0 =>
      unfold clean_currencyE
      dsimp only
      split
      · rfl
      · split <;> rfl
  · cases t with
    | none => rfl
    | some s0 =>
      simp only [parse_time_limitE]
      split
      · rfl
      · split <;> rfl
  · cases s with
    | none => rfl
    | some s0 =>
      simp only [standardize_timeE]
      split <;> rfl
  · cases p with
    | none => rfl
    | some r =>
      unfold categorize_priceE
      dsimp only
      split_ifs <;> rfl
  · cases v with
    | none => rfl
    | some s0 =>
      unfold clean_capacityE
      dsimp only
      split <;> rfl

/-! ### Claim C8: the category mapping -/

/-- The fixed lookup table for parking categories. -/
def category_mapping : List (String × String) :=
  [("PAID PARKING", "PAID"), ("PAID", "PAID"),
   ("UNRESTRICTED", "UNRESTRICTED"), ("RESTRICTED", "RESTRICTED"),
   ("CARPOOL", "CARPOOL"), ("RPZ", "PERMIT"),
   ("TIME LIMIT", "TIME_LIMITED"), ("NO PARKING", "NO_PARKING")]

/-- category_std: fillna('UNKNOWN') then .str.strip().str.upper(). -/
def category_std (raw : Option String) : String :=
  String.mk (pyUpper (pyStrip (raw.getD "UNKNOWN").data))

/-- category_clean: .map(category_mapping) (a dict lookup, NaN when the key is
missing) followed by .fillna(category_std). -/
def category_clean (raw : Option String) : String :=
  match category_mapping.find? (fun q => category_std raw == q.1) with
  | some q => q.2
  | none => category_std raw

/-- The category derivation as described by the specification: trim and
upper-case the raw value (absent defaulting to UNKNOWN first), then the fixed
eight-entry table, with unmapped values passing through unchanged. -/
def category_clean_spec (raw : Option String) : String :=
  let std := category_std raw
  if std = "PAID PARKING" then "PAID"
  else if std = "PAID" then "PAID"
  else if std = "UNRESTRICTED" then "UNRESTRICTED"
  else if std = "RESTRICTED" then "RESTRICTED"
  else if std = "CARPOOL" then "CARPOOL"
  else if std = "RPZ" then "PERMIT"
  else if std = "TIME LIMIT" then "TIME_LIMITED"
  else if std = "NO PARKING" then "NO_PARKING"
  else std

/-- Claim C8: the derived clean category is the trimmed upper-cased raw value
(absent defaulted to UNKNOWN) mapped through the fixed table, with unmapped
values passing through unchanged; including the spec's concrete examples. -/
theorem category_mapping_correct :
    (∀ raw, category_clean raw = category_clean_spec raw)
    ∧ category_clean (some " Paid Parking ") = "PAID"
    ∧ category_clean (some "XYZ") = "XYZ"
    ∧ category_clean none = "UNKNOWN" := by
  refine ⟨?_, by decide, by decide, by decide⟩
  intro raw
  unfold category_clean category_clean_spec category_mapping
  generalize category_std raw = std
  by_cases h1 : std = "PAID PARKING"
  · subst h1; decide
  · by_cases h2 : std = "PAID"
    · subst h2; decide
    · by_cases h3 : std = "UNRESTRICTED"
      · subst h3; decide
      · by_cases h4 : std = "RESTRICTED"
        · subst h4; decide
        · by_cases h5 : std = "CARPOOL"
          · subst h5; decide
          · by_cases h6 : std = "RPZ"
            · subst h6; decide
            · by_cases h7 : std = "TIME LIMIT"
              · subst h7; decide
              · by_cases h8 : std = "NO PARKING"
                · subst h8; decide
                · have b1 : (std == "PAID PARKING") = false := beq_eq_false_iff_ne.mpr h1
                  have b2 : (std == "PAID") = false := beq_eq_false_iff_ne.mpr h2
                  have b3 : (std == "UNRESTRICTED") = false := beq_eq_false_iff_ne.mpr h3
                  have b4 : (std == "RESTRICTED") = false := beq_eq_false_iff_ne.mpr h4
                  have b5 : (std == "CARPOOL") = false := beq_eq_false_iff_ne.mpr h5
                  have b6 : (std == "RPZ") = false := beq_eq_false_iff_ne.mpr h6
                  have b7 : (std == "TIME LIMIT") = false := beq_eq_false_iff_ne.mpr h7
                  have b8 : (std == "NO PARKING") = false := beq_eq_false_iff_ne.mpr h8
                  simp only [List.find?, b1, b2, b3, b4, b5, b6, b7, b8, h1, h2, h3,
                    h4, h5, h6, h7, h8, if_false]

/-! ### Bounds of the strptime parsers -/

/-- Every %I candidate is an hour between 1 and 12. -/
theorem hourCands_bound : ∀ (cs : List Char) (p : Nat × List Char),
    p ∈ hourCands cs → 1 ≤ p.1 ∧ p.1 ≤ 12 := by
  intro cs p
  obtain ⟨pv, pr⟩ := p
  intro hp
  match cs with
  | [] => simp [hourCands] at hp
  | [c1] =>
    simp only [hourCands] at hp
    split_ifs at hp with h
    · simp only [List.mem_singleton, Prod.mk.injEq] at hp
      obtain ⟨hv, _⟩ := hp
      subst hv
      dsimp only
      simp only [digitVal]
      omega
    · simp at hp
  | c1 :: c2 :: rest =>
    simp only [hourCands, List.mem_append] at hp
    rcases hp with (hp | hp) | hp <;>
    · split_ifs at hp with h
      · simp only [List.mem_singleton, Prod.mk.injEq] at hp
        obtain ⟨hv, _⟩ := hp
        subst hv
        dsimp only
        simp only [digitVal]
        omega
      · simp at hp

/-- Every %M candidate is a minute between 0 and 59. -/
theorem minuteCands_bound : ∀ (cs : List Char) (p : Nat × List Char),
    p ∈ minuteCands cs → p.1 ≤ 59 := by
  intro cs p
  obtain ⟨pv, pr⟩ := p
  intro hp
  match cs with
  | [] => simp [minuteCands] at hp
  | [c1] =>
    simp only [minuteCands] at hp
    split_ifs at hp with h
    · simp only [List.mem_singleton, Prod.mk.injEq] at hp
      obtain ⟨hv, _⟩ := hp
      subst hv
      dsimp only
      simp only [digitVal]
      omega
    · simp at hp
  | c1 :: c2 :: rest =>
    simp only [minuteCands, List.mem_append] at hp
    rcases hp with hp | hp <;>
    · split_ifs at hp with h
      · simp only [List.mem_singleton, Prod.mk.injEq] at hp
        obtain ⟨hv, _⟩ := hp
        subst hv
        dsimp only
        simp only [digitVal]
        omega
      · simp at hp

/-- A successful firstSome comes from some candidate in the list. -/
theorem firstSome_some {α : Type} (k : Nat → List Char → Option α) (v : α) :
    ∀ cands : List (Nat × List Char), firstSome cands k = some v →
      ∃ p, p ∈ cands ∧ k p.1 p.2 = some v := by
  intro cands
  induction cands with
  | nil => intro h; simp [firstSome] at h
  | cons a t ih =>
    obtain ⟨av, ar⟩ := a
    intro h
    simp only [firstSome] at h
    cases hk : k av ar with
    | some x =>
      refine ⟨(av, ar), List.mem_cons_self _ _, ?_⟩
      rw [hk] at h ⊢
      dsimp only at h
      exact h
    | none =>
      rw [hk] at h
      dsimp only at h
      obtain ⟨p, hp, hkp⟩ := ih h
      exact ⟨p, List.mem_cons_of_mem _ hp, hkp⟩

/-- The 12-to-24-hour conversion stays below 24 for hours between 1 and 12. -/
theorem to24_lt {h12 : Nat} (pm : Bool) (h1 : 1 ≤ h12) (h2 : h12 ≤ 12) :
    to24 h12 pm < 24 := by
  unfold to24
  split_ifs <;> omega

/-- A successful '%I:%M %p' parse is within the 24-hour clock. -/
theorem fmtColonSpace_bound {cs : List Char} {h m : Nat}
    (hf : fmtColonSpace cs = some (h, m)) : h < 24 ∧ m < 60 := by
  obtain ⟨p, hp, hk⟩ := firstSome_some _ _ _ hf
  obtain ⟨hb1, hb2⟩ := hourCands_bound cs p hp
  split at hk
  all_goals try contradiction
  split_ifs at hk with hc
  all_goals try contradiction
  obtain ⟨q, hq, hk2⟩ := firstSome_some _ _ _ hk
  have hm59 := minuteCands_bound _ q hq
  split_ifs at hk2 with hsp
  all_goals try contradiction
  split at hk2
  all_goals try contradiction
  split_ifs at hk2 with hemp
  all_goals try contradiction
  simp only [Option.some_inj, Prod.mk.injEq] at hk2
  obtain ⟨hh, hm2⟩ := hk2
  subst hh
  subst hm2
  exact ⟨to24_lt _ hb1 hb2, by omega⟩

/-- A successful '%I%p' parse is within the 24-hour clock. -/
theorem fmtHourOnly_bound {cs : List Char} {h m : Nat}
    (hf : fmtHourOnly cs = some (h, m)) : h < 24 ∧ m < 60 := by
  obtain ⟨p, hp, hk⟩ := firstSome_some _ _ _ hf
  obtain ⟨hb1, hb2⟩ := hourCands_bound cs p hp
  split at hk
  all_goals try contradiction
  split_ifs at hk with hemp
  all_goals try contradiction
  simp only [Option.some_inj, Prod.mk.injEq] at hk
  obtain ⟨hh, hm2⟩ := hk
  subst hh
  subst hm2
  exact ⟨to24_lt _ hb1 hb2, by omega⟩

/-- A successful '%I:%M%p' parse is within the 24-hour clock. -/
theorem fmtColonTight_bound {cs : List Char} {h m : Nat}
    (hf : fmtColonTight cs = some (h, m)) : h < 24 ∧ m < 60 := by
  obtain ⟨p, hp, hk⟩ := firstSome_some _ _ _ hf
  obtain ⟨hb1, hb2⟩ := hourCands_bound cs p hp
  split at hk
  all_goals try contradiction
  split_ifs at hk with hc
  all_goals try contradiction
  obtain ⟨q, hq, hk2⟩ := firstSome_some _ _ _ hk
  have hm59 := minuteCands_bound _ q hq
  split at hk2
  all_goals try contradiction
  split_ifs at hk2 with hemp
  all_goals try contradiction
  simp only [Option.some_inj, Prod.mk.injEq] at hk2
  obtain ⟨hh, hm2⟩ := hk2
  subst hh
  subst hm2
  exact ⟨to24_lt _ hb1 hb2, by omega⟩

/-- A successful parse by any of the three ordered formats is within the
24-hour clock. -/
theorem tryFormats_bound {cs : List Char} {h m : Nat}
    (ht : tryFormats cs = some (h, m)) : h < 24 ∧ m < 60 := by
  unfold tryFormats at ht
  cases h1 : fmtColonSpace cs with
  | some p =>
    rw [h1] at ht
    dsimp only at ht
    simp only [Option.some_inj] at ht
    subst ht
    exact fmtColonSpace_bound h1
  | none =>
    rw [h1] at ht
    dsimp only at ht
    cases h2 : fmtHourOnly cs with
    | some p =>
      rw [h2] at ht
      dsimp only at ht
      simp only [Option.some_inj] at ht
      subst ht
      exact fmtHourOnly_bound h2
    | none =>
      rw [h2] at ht
      dsimp only at ht
      exact fmtColonTight_bound ht
/-! ### Claim C1: the time standardizer -/

/-- The time standardizer as described by the (amended) specification: after
upper-casing and trimming, a string containing AM or PM is parsed against the
ordered formats and the first success is reformatted as 24-hour HH:MM; when no
format matches, the string falls through to the colon rule; the colon rule
returns the token before the first whitespace when the string contains a
colon, and otherwise the result is absent. Absent input yields absent. -/
def standardize_time_spec (x : Option String) : Option String :=
  match x with
  | none => none
  | some s =>
    let cs := pyUpper (pyStrip s.data)
    Option.map String.mk
      (if isSubstrOf "AM".data cs || isSubstrOf "PM".data cs then
        match tryFormats cs with
        | some p => some (fmtHM p.1 p.2)
        | none => if cs.contains ':' then (pySplitWS cs).head? else none
      else if cs.contains ':' then (pySplitWS cs).head? else none)

/-- Claim C1 (amended): the standardizer behaves as standardize_time_spec; in
particular with AM/PM present and a successful format parse the result is the
24-hour reformat, and with no successful parse the string falls through to the
colon rule instead of being absent. The spec's concrete examples hold. -/
theorem standardize_time_amended :
    (∀ x, standardize_time x = standardize_time_spec x)
    ∧ standardize_time (some "2:30 PM") = some "14:30"
    ∧ standardize_time (some "9AM") = some "09:00"
    ∧ standardize_time (some "14:30") = some "14:30"
    ∧ standardize_time none = none := by
  refine ⟨?_, by decide, by decide, by decide, by decide⟩
  intro x
  cases x with
  | none => rfl
  | some s =>
    simp only [standardize_time, standardize_timeE, standardize_time_body,
      standardize_time_spec]
    generalize pyUpper (pyStrip s.data) = cs
    split_ifs with hampm hcolon hcolon
    · cases ht : tryFormats cs with
      | some p => rfl
      | none =>
        cases hsp : pySplitWS cs with
        | nil => rfl
        | cons t ts => rfl
    · cases ht : tryFormats cs with
      | some p => rfl
      | none => rfl
    · cases hsp : pySplitWS cs with
      | nil => rfl
      | cons t ts => rfl
    · rfl

/-- Claim C1 counterexample: "PM 2:30" (after trimming and upper-casing)
contains PM, matches none of the three formats, and yet the result is the
token "PM" rather than absent: the code falls through to the colon rule. -/
theorem standardize_time_ampm_fallthrough_cex :
    isSubstrOf "PM".data (pyUpper (pyStrip "PM 2:30".data)) = true
    ∧ tryFormats (pyUpper (pyStrip "PM 2:30".data)) = none
    ∧ standardize_time (some "PM 2:30") = some "PM" := by decide

/-! ### Claim C6: shape of the standardized weekday times -/

/-- Whether a character list has the form HH:MM of a valid 24-hour time
(two digits, colon, two digits, hour below 24, minute below 60). -/
def isHHMMChars : List Char → Bool
  | [a, b, c, d, e] =>
    isDigitChar a && isDigitChar b && (c == ':') && isDigitChar d
    && isDigitChar e && decide (10 * digitVal a + digitVal b < 24)
    && decide (10 * digitVal d + digitVal e < 60)
  | _ => false

/-- Whether a string has the form HH:MM of a valid 24-hour time. -/
def isHHMM (s : String) : Bool := isHHMMChars s.data

/-- The ten digit characters evaluate correctly. -/
theorem dchar_facts : ∀ d : Nat, d < 10 →
    isDigitChar (dchar d) = true ∧ digitVal (dchar d) = d := by decide

/-- The strftime %H:%M output of an in-range time is a valid HH:MM string. -/
theorem isHHMM_fmtHM {h m : Nat} (hh : h < 24) (hm : m < 60) :
    isHHMM (String.mk (fmtHM h m)) = true := by
  have f1 := dchar_facts (h / 10) (by omega)
  have f2 := dchar_facts (h % 10) (by omega)
  have f3 := dchar_facts (m / 10) (by omega)
  have f4 := dchar_facts (m % 10) (by omega)
  show isHHMMChars (fmtHM h m) = true
  simp only [fmtHM, pad2, List.cons_append, List.nil_append, isHHMMChars]
  rw [f1.1, f2.1, f3.1, f4.1, f1.2, f2.2, f3.2, f4.2]
  simp only [Bool.and_eq_true, decide_eq_true_eq, beq_self_eq_true, and_true,
    true_and]
  omega

/-- The weekday_start column: _standardize_time applied to START_TIME_WKD. -/
def weekday_start (raw : Option String) : Option String := standardize_time raw

/-- The weekday_end column: _standardize_time applied to END_TIME_WKD. -/
def weekday_end (raw : Option String) : Option String := standardize_time raw

/-- Claim C6 (amended): each weekday time attribute is absent, or a valid
24-hour HH:MM string (always the case for the AM/PM parsing branch), or the
verbatim first whitespace-delimited token of the trimmed upper-cased raw value
produced by the colon fall-through, which need not have HH:MM form. -/
theorem weekday_time_shape :
    (∀ s : String,
      match weekday_start (some s) with
      | none => True
      | some t => isHHMM t = true
          ∨ some t.data = (pySplitWS (pyUpper (pyStrip s.data))).head?)
    ∧ weekday_start none = none
    ∧ (∀ r, weekday_end r = weekday_start r) := by
  refine ⟨?_, rfl, fun r => rfl⟩
  intro s
  simp only [weekday_start, standardize_time, standardize_timeE,
    standardize_time_body]
  generalize pyUpper (pyStrip s.data) = cs
  split_ifs with hampm hcolon hcolon
  · cases ht : tryFormats cs with
    | some p =>
      obtain ⟨ph, pm2⟩ := p
      obtain ⟨hh, hm⟩ := tryFormats_bound ht
      exact Or.inl (isHHMM_fmtHM hh hm)
    | none =>
      cases hsp : pySplitWS cs with
      | nil => exact trivial
      | cons t ts => exact Or.inr rfl
  · cases ht : tryFormats cs with
    | some p =>
      obtain ⟨ph, pm2⟩ := p
      obtain ⟨hh, hm⟩ := tryFormats_bound ht
      exact Or.inl (isHHMM_fmtHM hh hm)
    | none => exact trivial
  · cases hsp : pySplitWS cs with
    | nil => exact trivial
    | cons t ts => exact Or.inr rfl
  · exact trivial

/-- Claim C6 counterexample: the raw value "AB:CD" produces the weekday time
"AB:CD", which is not a 24-hour HH:MM string. -/
theorem weekday_time_shape_cex :
    weekday_start (some "AB:CD") = some "AB:CD"
    ∧ isHHMM "AB:CD" = false := by decide

/-! ### The Combiner (create_combined_dataset): claims C3 and C7 -/

/-- A cleaned street segment row as read by the combiner (the geometry is
irrelevant to the combiner claims; the centroid conversion only changes the
geometry column). -/
structure StreetRow where
  parking_type : String
  category_clean : String
  total_spaces : Int
  price_category : String

/-- A row of the combined overview layer. total_spaces is optional: garage
capacities can be absent (pandas NaN). -/
structure CombinedRow where
  parking_type : String
  category : String
  total_spaces : Option Int
  price_category : String
deriving DecidableEq

/-- A cleaned garage row as read by the combiner. -/
structure GarageRow where
  capacity : Option Int
deriving DecidableEq

/-- The cleaned garage dataset: its rows, and whether a capacity column was
derived at all ('capacity' in garages.columns). -/
structure GarageData where
  rows : List GarageRow
  hasCapacityCol : Bool

/-- street_simple: project and rename category_clean to category; street
total_spaces is an int column, hence never absent. -/
def street_simple (street : List StreetRow) : List CombinedRow :=
  street.map (fun r =>
    ⟨r.parking_type, r.category_clean, some r.total_spaces, r.price_category⟩)

/-- garage_simple: category GARAGE and price_category UNKNOWN for every row;
total_spaces is the per-row capacity when the capacity column exists (absent
capacities remain absent), and the scalar 0 otherwise. -/
def garage_simple (gd : GarageData) : List CombinedRow :=
  gd.rows.map (fun g =>
    ⟨"garage", "GARAGE", if gd.hasCapacityCol then g.capacity else some 0,
      "UNKNOWN"⟩)

/-- pd.concat([street_simple, garage_simple]) when the garage file exists,
else street_simple alone. -/
def combined_rows (street : List StreetRow) (gd : Option GarageData) :
    List CombinedRow :=
  match gd with
  | some g => street_simple street ++ garage_simple g
  | none => street_simple street

/-- combined.iloc[::3]: every third row starting at index 0. -/
def everyThird {α : Type} : List α → List α
  | [] => []
  | [x] => [x]
  | [x, _] => [x]
  | x :: _ :: _ :: t => x :: everyThird t

/-- create_combined_dataset: concatenate, then down-sample with stride 3. -/
def create_combined_dataset (street : List StreetRow)
    (gd : Option GarageData) : List CombinedRow :=
  everyThird (combined_rows street gd)

/-- The stride-3 selection has length ceil(N/3). -/
theorem everyThird_length {α : Type} (l : List α) :
    (everyThird l).length = (l.length + 2) / 3 := by
  induction l using everyThird.induct <;> simp [everyThird] <;> omega

/-- The i-th retained row is the row at original index 3*i. -/
theorem everyThird_getElem {α : Type} :
    ∀ (l : List α) (i : Nat), (everyThird l)[i]? = l[3 * i]? := by
  intro l
  induction l using everyThird.induct with
  | case1 => intro i; rfl
  | case2 x =>
    intro i
    cases i with
    | zero => rfl
    | succ j =>
      rw [show 3 * (j + 1) = 3 * j + 1 + 1 + 1 by ring]
      simp [everyThird, List.getElem?_cons_succ]
  | case3 x y =>
    intro i
    cases i with
    | zero => rfl
    | succ j =>
      rw [show 3 * (j + 1) = 3 * j + 1 + 1 + 1 by ring]
      simp [everyThird, List.getElem?_cons_succ]
  | case4 x a b t ih =>
    intro i
    cases i with
    | zero => simp [everyThird]
    | succ j =>
      rw [show 3 * (j + 1) = 3 * j + 1 + 1 + 1 by ring]
      simp only [everyThird, List.getElem?_cons_succ]
      exact ih j

/-- The stride-3 selection is a sublist: original relative order preserved. -/
theorem everyThird_sublist {α : Type} (l : List α) :
    (everyThird l).Sublist l := by
  induction l using everyThird.induct with
  | case1 => exact List.Sublist.refl _
  | case2 x => exact List.Sublist.refl _
  | case3 x y => exact List.Sublist.cons₂ x (List.nil_sublist [y])
  | case4 x a b t ih =>
    simp only [everyThird]
    exact List.Sublist.cons₂ x ((ih.cons b).cons a)

/-- Claim C3: the combiner's down-sampling step retains exactly ceil(N/3)
rows, namely those at original indices 0, 3, 6, ... in their original
relative order, and create_combined_dataset is exactly this selection applied
to the concatenated rows. -/
theorem combiner_downsample_stride3 :
    (∀ (l : List CombinedRow), (everyThird l).length = (l.length + 2) / 3)
    ∧ (∀ (l : List CombinedRow) (i : Nat), (everyThird l)[i]? = l[3 * i]?)
    ∧ (∀ (l : List CombinedRow), (everyThird l).Sublist l)
    ∧ (∀ street gd,
        create_combined_dataset street gd = everyThird (combined_rows street gd)) :=
  ⟨fun l => everyThird_length l, fun l i => everyThird_getElem l i,
   fun l => everyThird_sublist l, fun _ _ => rfl⟩

/-- Claim C7 counterexample: with a capacity column present and one garage
whose capacity is absent, the combiner output's garage row has absent
total_spaces, not 0. -/
theorem garage_capacity_default_cex :
    create_combined_dataset [] (some ⟨[⟨none⟩], true⟩)
      = [⟨"garage", "GARAGE", none, "UNKNOWN"⟩]
    ∧ (none : Option Int) ≠ some 0 := by
  exact ⟨rfl, by decide⟩

/-- Claim C7 (amended): every garage-derived row has parking_type garage,
category GARAGE, price_category UNKNOWN, and total_spaces equal to the
garage's capacity when the garage dataset has a capacity column (absent
capacities staying absent), and 0 for every garage row when there is no
capacity column; and every combiner output row comes from the concatenated
rows. -/
theorem garage_rows_fields :
    (∀ (gd : GarageData) (r : CombinedRow), r ∈ garage_simple gd →
      r.parking_type = "garage" ∧ r.category = "GARAGE"
      ∧ r.price_category = "UNKNOWN"
      ∧ ∃ g, g ∈ gd.rows
          ∧ r.total_spaces = (if gd.hasCapacityCol then g.capacity else some 0))
    ∧ (∀ street gd r, r ∈ create_combined_dataset street gd →
        r ∈ combined_rows street gd) := by
  constructor
  · intro gd r hr
    simp only [garage_simple, List.mem_map] at hr
    obtain ⟨g, hg, hrg⟩ := hr
    subst hrg
    exact ⟨rfl, rfl, rfl, g, hg, rfl⟩
  · intro street gd r hr
    exact (everyThird_sublist _).subset hr

/-- Witness for garage_rows_fields at a concrete garage dataset. -/
theorem garage_rows_fields_witness :
    (⟨"garage", "GARAGE", some 5, "UNKNOWN"⟩ : CombinedRow).parking_type = "garage"
    ∧ (⟨"garage", "GARAGE", some 5, "UNKNOWN"⟩ : CombinedRow).category = "GARAGE"
    ∧ (⟨"garage", "GARAGE", some 5, "UNKNOWN"⟩ : CombinedRow).price_category = "UNKNOWN"
    ∧ ∃ g, g ∈ (⟨[⟨some 5⟩], true⟩ : GarageData).rows
        ∧ (⟨"garage", "GARAGE", some 5, "UNKNOWN"⟩ : CombinedRow).total_spaces
            = (if (⟨[⟨some 5⟩], true⟩ : GarageData).hasCapacityCol
                then g.capacity else some 0) :=
  garage_rows_fields.1 ⟨[⟨some 5⟩], true⟩
    ⟨"garage", "GARAGE", some 5, "UNKNOWN"⟩ (by decide)

/-! ### Claim C10: drop_duplicates on the geometry column -/

/-- A cleaned row as seen by drop_duplicates(subset=['geometry']): its
geometry and its remaining attributes. -/
structure GeoRow (G A : Type) where
  geom : G
  attrs : A
deriving DecidableEq

/-- The first-occurrence scan of pandas drop_duplicates (keep='first', the
default): a row is dropped when its geometry was already seen. -/
def dropDupAux {G A : Type} [DecidableEq G] (seen : List G) :
    List (GeoRow G A) → List (GeoRow G A)
  | [] => []
  | r :: t =>
    if r.geom ∈ seen then dropDupAux seen t
    else r :: dropDupAux (r.geom :: seen) t

/-- df_clean.drop_duplicates(subset=['geometry']). -/
def drop_duplicates_geom {G A : Type} [DecidableEq G]
    (l : List (GeoRow G A)) : List (GeoRow G A) :=
  dropDupAux [] l

/-- The row kept at index i per the claim's description, relative to a set of
already-seen geometries: the row survives when its geometry is not seen and
no earlier row of the list has the same geometry. -/
def keptAt {G A : Type} [DecidableEq G] (seen : List G)
    (l : List (GeoRow G A)) (i : Nat) : Option (GeoRow G A) :=
  match l[i]? with
  | none => none
  | some r =>
    if r.geom ∈ seen
        ∨ ((l.take i).any fun q => decide (q.geom = r.geom)) = true then none
    else some r

/-- The rows at indices whose geometry did not occur earlier, in index order. -/
def firstOccAux {G A : Type} [DecidableEq G] (seen : List G)
    (l : List (GeoRow G A)) : List (GeoRow G A) :=
  (List.range l.length).filterMap (keptAt seen l)

/-- The claim's description of the duplicate-removal output: the rows at
indices i such that no index j < i has the same geometry, in index order. -/
def first_occurrences {G A : Type} [DecidableEq G]
    (l : List (GeoRow G A)) : List (GeoRow G A) :=
  firstOccAux [] l

/-- Shifting keptAt past a head row whose geometry is already seen. -/
theorem keptAt_succ_mem {G A : Type} [DecidableEq G] (seen : List G)
    (r : GeoRow G A) (t : List (GeoRow G A)) (hmem : r.geom ∈ seen) (j : Nat) :
    keptAt seen (r :: t) (j + 1) = keptAt seen t j := by
  unfold keptAt
  simp only [List.getElem?_cons_succ, List.take_succ_cons, List.any_cons]
  cases t[j]? with
  | none => rfl
  | some x =>
    dsimp only
    refine if_congr ?_ rfl rfl
    simp only [Bool.or_eq_true, decide_eq_true_eq]
    constructor
    · rintro (hx | hor)
      · exact Or.inl hx
      · rcases hor with hrx | hany
        · exact Or.inl (hrx ▸ hmem)
        · exact Or.inr hany
    · rintro (hx | hany)
      · exact Or.inl hx
      · exact Or.inr (Or.inr hany)

/-- Shifting keptAt past a head row whose geometry is newly seen. -/
theorem keptAt_succ_not_mem {G A : Type} [DecidableEq G] (seen : List G)
    (r : GeoRow G A) (t : List (GeoRow G A)) (j : Nat) :
    keptAt seen (r :: t) (j + 1) = keptAt (r.geom :: seen) t j := by
  unfold keptAt
  simp only [List.getElem?_cons_succ, List.take_succ_cons, List.any_cons]
  cases t[j]? with
  | none => rfl
  | some x =>
    dsimp only
    refine if_congr ?_ rfl rfl
    simp only [List.mem_cons, Bool.or_eq_true, decide_eq_true_eq]
    constructor
    · rintro (hx | (hrx | hany))
      · exact Or.inl (Or.inr hx)
      · exact Or.inl (Or.inl hrx.symm)
      · exact Or.inr hany
    · rintro ((hxr | hx) | hany)
      · exact Or.inr (Or.inl hxr.symm)
      · exact Or.inl hx
      · exact Or.inr (Or.inr hany)

/-- The first-occurrence scan equals the index-wise description. -/
theorem dropDupAux_eq_firstOccAux {G A : Type} [DecidableEq G] :
    ∀ (l : List (GeoRow G A)) (seen : List G),
      dropDupAux seen l = firstOccAux seen l := by
  intro l
  induction l with
  | nil => intro seen; rfl
  | cons r t ih =>
    intro seen
    unfold dropDupAux firstOccAux
    by_cases hmem : r.geom ∈ seen
    · rw [if_pos hmem]
      have h0 : keptAt seen (r :: t) 0 = none := by
        unfold keptAt
        simp only [List.getElem?_cons_zero, List.take_zero, List.any_nil]
        rw [if_pos (Or.inl hmem)]
      have hsucc : keptAt seen (r :: t) ∘ Nat.succ = keptAt seen t :=
        funext fun j => keptAt_succ_mem seen r t hmem j
      simp only [List.length_cons, List.range_succ_eq_map, List.filterMap_cons,
        List.filterMap_map, h0, hsucc]
      exact ih seen
    · rw [if_neg hmem]
      have h0 : keptAt seen (r :: t) 0 = some r := by
        unfold keptAt
        simp only [List.getElem?_cons_zero, List.take_zero, List.any_nil]
        rw [if_neg (by simp [hmem])]
      have hsucc : keptAt seen (r :: t) ∘ Nat.succ = keptAt (r.geom :: seen) t :=
        funext fun j => keptAt_succ_not_mem seen r t j
      simp only [List.length_cons, List.range_succ_eq_map, List.filterMap_cons,
        List.filterMap_map, h0, hsucc]
      exact congrArg (List.cons r) (ih (r.geom :: seen))

/-- The duplicate-removal output is a sublist of the input. -/
theorem dropDupAux_sublist {G A : Type} [DecidableEq G] :
    ∀ (l : List (GeoRow G A)) (seen : List G), (dropDupAux seen l).Sublist l := by
  intro l
  induction l with
  | nil => intro seen; simp [dropDupAux]
  | cons r t ih =>
    intro seen
    unfold dropDupAux
    split_ifs with hmem
    · exact (ih seen).cons r
    · exact List.Sublist.cons₂ r (ih (r.geom :: seen))

/-- With pairwise distinct geometries and no geometry already seen, nothing is
dropped. -/
theorem dropDupAux_of_nodup {G A : Type} [DecidableEq G] :
    ∀ (l : List (GeoRow G A)) (seen : List G),
      (∀ r ∈ l, r.geom ∉ seen) → (l.map fun r => r.geom).Nodup →
      dropDupAux seen l = l := by
  intro l
  induction l with
  | nil => intro seen _ _; rfl
  | cons r t ih =>
    intro seen hseen hnd
    rw [List.map_cons, List.nodup_cons] at hnd
    unfold dropDupAux
    rw [if_neg (hseen r (List.mem_cons_self r t))]
    congr 1
    apply ih
    · intro q hq
      simp only [List.mem_cons]
      rintro (hqg | hqs)
      · exact hnd.1 (hqg ▸ List.mem_map_of_mem (fun r => r.geom) hq)
      · exact hseen q (List.mem_cons_of_mem r hq) hqs
    · exact hnd.2

/-- Claim C10: duplicate-geometry removal keeps exactly the rows whose
geometry has no earlier occurrence (the first of each group of equal
geometries), preserves the relative order of the retained rows, and drops
nothing when all geometries are pairwise distinct. -/
theorem drop_duplicate_geometry_first_kept :
    (∀ (G A : Type) [DecidableEq G] (l : List (GeoRow G A)),
      drop_duplicates_geom l = first_occurrences l)
    ∧ (∀ (G A : Type) [DecidableEq G] (l : List (GeoRow G A)),
      (drop_duplicates_geom l).Sublist l)
    ∧ (∀ (G A : Type) [DecidableEq G] (l : List (GeoRow G A)),
      (l.map fun r => r.geom).Nodup → drop_duplicates_geom l = l) :=
  ⟨fun _ _ _ l => dropDupAux_eq_firstOccAux l [],
   fun _ _ _ l => dropDupAux_sublist l [],
   fun _ _ _ l hnd => dropDupAux_of_nodup l [] (by simp) hnd⟩

/-- Witness for drop_duplicate_geometry_first_kept at a concrete row list. -/
theorem drop_duplicate_geometry_first_kept_witness :
    drop_duplicates_geom [(⟨0, 0⟩ : GeoRow Nat Nat), ⟨1, 0⟩] = [⟨0, 0⟩, ⟨1, 0⟩] :=
  drop_duplicate_geometry_first_kept.2.2 Nat Nat [⟨0, 0⟩, ⟨1, 0⟩] (by decide)

/-! ### Claim C9: optional source files are skipped, not errors -/

/-- os.path.join(raw_dir, filename) with the default raw_data directory. -/
def rawPath (fname : String) : String := "raw_data/" ++ fname

/-- The pricing-tiers source file path. -/
def tiersSrc : String := rawPath "parking_tiers.geojson"

/-- The garages source file path. -/
def garagesSrc : String := rawPath "garages.geojson"

/-- The blockface source file path. -/
def blockfaceSrc : String := rawPath "parking_categories.geojson"

/-- The work done inside a cleaner's try block (load, clean, write), abstracted
as an oracle: success or an exception. -/
def LoadFn : Type := String → Except Unit Unit

/-- clean_parking_tiers: the os.path.exists check precedes the try block and
returns None with no output when the file is absent; otherwise the try body
runs and any exception is caught, again yielding None with no output. The
result carries the Option outcome and the list of files written. -/
def clean_parking_tiersE (load : LoadFn) (fs : List String) :
    Except Unit (Option Unit × List String) :=
  if tiersSrc ∈ fs then
    match load tiersSrc with
    | .ok _ => .ok (some (), ["assets/parking_tiers_clean.geojson"])
    | .error _ => .ok (none, [])
  else .ok (none, [])

/-- clean_garages, with the same structure as clean_parking_tiers. -/
def clean_garagesE (load : LoadFn) (fs : List String) :
    Except Unit (Option Unit × List String) :=
  if garagesSrc ∈ fs then
    match load garagesSrc with
    | .ok _ => .ok (some (), ["assets/garages_clean.geojson"])
    | .error _ => .ok (none, [])
  else .ok (none, [])

/-- clean_blockface_comprehensive: the whole body is inside the try block
(a missing file raises inside gpd.read_file and is caught). -/
def clean_blockfaceE (load : LoadFn) :
    Except Unit (Option Unit × List String) :=
  match load blockfaceSrc with
  | .ok _ => .ok (some (),
      ["assets/street_parking_detailed.geojson",
       "assets/street_parking_overview.geojson"])
  | .error _ => .ok (none, [])

/-- create_combined_dataset's driver-level behaviour: inside its try block it
first checks that the street output exists, returning None otherwise; any
exception is caught. -/
def create_combinedE (load : LoadFn) (written : List String) :
    Except Unit (Option Unit × List String) :=
  if "assets/street_parking_detailed.geojson" ∈ written then
    match load "assets/street_parking_detailed.geojson" with
    | .ok _ => .ok (some (), ["assets/parking_all_points.geojson"])
    | .error _ => .ok (none, [])
  else .ok (none, [])

/-- Collapse a caught cleaner result (each cleaner catches internally, so the
error arm is unreachable). -/
def getOr (e : Except Unit (Option Unit × List String)) :
    Option Unit × List String :=
  match e with
  | .ok r => r
  | .error _ => (none, [])

/-- The outcome of run_all: each step's result, everything written, and the
steps executed. -/
structure PipelineResult where
  blockface : Option Unit
  tiers : Option Unit
  garages : Option Unit
  combined : Option Unit
  written : List String
  stepsRun : List String

/-- run_all: the four steps run unconditionally in sequence (each catches its
own failures), then verification runs. -/
def run_all (loadB loadT loadG loadC : LoadFn) (fs : List String) :
    PipelineResult :=
  let b := getOr (clean_blockfaceE loadB)
  let t := getOr (clean_parking_tiersE loadT fs)
  let g := getOr (clean_garagesE loadG fs)
  let w := b.2 ++ t.2 ++ g.2
  let c := getOr (create_combinedE loadC w)
  ⟨b.1, t.1, g.1, c.1, w ++ c.2,
   ["blockface", "tiers", "garages", "combined", "verify"]⟩

/-- Claim C9: when the pricing-tiers or garages source file is absent, that
cleaner returns no result without raising and writes no output, and the
remaining pipeline steps still run (the step sequence is unconditional and the
combined step's outcome is unaffected by the skip). -/
theorem optional_sources_skip (loadB loadT loadG loadC : LoadFn)
    (fs : List String) :
    (tiersSrc ∉ fs →
      clean_parking_tiersE loadT fs = .ok (none, [])
      ∧ (run_all loadB loadT loadG loadC fs).tiers = none
      ∧ "assets/parking_tiers_clean.geojson"
          ∉ (run_all loadB loadT loadG loadC fs).written)
    ∧ (garagesSrc ∉ fs →
      clean_garagesE loadG fs = .ok (none, [])
      ∧ (run_all loadB loadT loadG loadC fs).garages = none
      ∧ "assets/garages_clean.geojson"
          ∉ (run_all loadB loadT loadG loadC fs).written)
    ∧ (run_all loadB loadT loadG loadC fs).stepsRun
        = ["blockface", "tiers", "garages", "combined", "verify"] := by
  refine ⟨?_, ?_, rfl⟩
  · intro habs
    have ht : clean_parking_tiersE loadT fs = .ok (none, []) := by
      unfold clean_parking_tiersE
      rw [if_neg habs]
    refine ⟨ht, ?_, ?_⟩
    · simp only [run_all, ht]
      rfl
    · simp only [run_all, ht]
      unfold clean_blockfaceE clean_garagesE create_combinedE getOr
      by_cases hgf : garagesSrc ∈ fs
      · rw [if_pos hgf]
        cases loadB blockfaceSrc <;> rename_i x1 <;> cases x1 <;>
          cases loadG garagesSrc <;> rename_i x2 <;> cases x2 <;>
          cases loadC "assets/street_parking_detailed.geojson" <;>
          rename_i x3 <;> cases x3 <;> decide
      · rw [if_neg hgf]
        cases loadB blockfaceSrc <;> rename_i x1 <;> cases x1 <;>
          cases loadC "assets/street_parking_detailed.geojson" <;>
          rename_i x3 <;> cases x3 <;> decide
  · intro habs
    have hg : clean_garagesE loadG fs = .ok (none, []) := by
      unfold clean_garagesE
      rw [if_neg habs]
    refine ⟨hg, ?_, ?_⟩
    · simp only [run_all, hg]
      rfl
    · simp only [run_all, hg]
      unfold clean_blockfaceE clean_parking_tiersE create_combinedE getOr
      by_cases htf : tiersSrc ∈ fs
      · rw [if_pos htf]
        cases loadB blockfaceSrc <;> rename_i x1 <;> cases x1 <;>
          cases loadT tiersSrc <;> rename_i x2 <;> cases x2 <;>
          cases loadC "assets/street_parking_detailed.geojson" <;>
          rename_i x3 <;> cases x3 <;> decide
      · rw [if_neg htf]
        cases loadB blockfaceSrc <;> rename_i x1 <;> cases x1 <;>
          cases loadC "assets/street_parking_detailed.geojson" <;>
          rename_i x3 <;> cases x3 <;> decide

/-- Witness for optional_sources_skip with only the required source present. -/
theorem optional_sources_skip_witness :
    clean_parking_tiersE (fun _ => Except.ok ()) ["raw_data/parking_categories.geojson"]
        = .ok (none, [])
    ∧ clean_garagesE (fun _ => Except.ok ()) ["raw_data/parking_categories.geojson"]
        = .ok (none, []) :=
  ⟨((optional_sources_skip (fun _ => Except.ok ()) (fun _ => Except.ok ())
      (fun _ => Except.ok ()) (fun _ => Except.ok ())
      ["raw_data/parking_categories.geojson"]).1 (by decide)).1,
   ((optional_sources_skip (fun _ => Except.ok ()) (fun _ => Except.ok ())
      (fun _ => Except.ok ()) (fun _ => Except.ok ())
      ["raw_data/parking_categories.geojson"]).2.1 (by decide)).1⟩

/-! ### Claim C2: the grid overview builder (_create_parking_overview) -/

/-- A cleaned street segment as seen by the overview builder: its geometry
(abstract, with intersection decided by an oracle standing for shapely) and
the three aggregated attributes. -/
structure Seg (G : Type) where
  geom : G
  total_spaces : Int
  paid_spaces : Int
  has_paid_parking : Bool

/-- An axis-aligned rectangle (shapely box), with exact rational coordinates
standing for the float degrees of the source. -/
structure Rect where
  xmin : ℚ
  ymin : ℚ
  xmax : ℚ
  ymax : ℚ
deriving DecidableEq

/-- box(x, y, x + grid_size, y + grid_size). -/
def mkBox (x y g : ℚ) : Rect := ⟨x, y, x + g, y + g⟩

/-- np.arange(lo, hi, step) for positive step: ceil((hi - lo) / step) points
starting at lo with spacing step. -/
def arange (lo hi step : ℚ) : List ℚ :=
  (List.range (Int.toNat ⌈(hi - lo) / step⌉)).map (fun k => lo + (k : ℚ) * step)

/-- The nested loops over x_coords (outer) and y_coords (inner) building the
grid polygons over the bounding box. -/
def gridCells (minx miny maxx maxy g : ℚ) : List Rect :=
  (arange minx maxx g).flatMap (fun x =>
    (arange miny maxy g).map (fun y => mkBox x y g))

/-- An output row of the overview dataset. -/
structure OverviewCell where
  geom : Rect
  total_spaces : Int
  paid_spaces : Int
  has_paid_parking : Bool
deriving DecidableEq

/-- The segments whose geometry intersects a cell (the sjoin predicate). -/
def segMatches {G : Type} (inter : G → Rect → Bool) (segs : List (Seg G))
    (c : Rect) : List (Seg G) :=
  segs.filter (fun s => inter s.geom c)

/-- The rows a left spatial join contributes for one grid cell: one row per
intersecting segment, or a single unmatched row (NaN attributes) when none
intersects. -/
def joinBlock {G : Type} (inter : G → Rect → Bool) (segs : List (Seg G))
    (i : Nat) (c : Rect) : List (Nat × Option (Seg G)) :=
  if (segMatches inter segs c).isEmpty then [(i, none)]
  else (segMatches inter segs c).map (fun s => (i, some s))

/-- gpd.sjoin(grid, df, how='left', predicate='intersects'), indexed by the
grid cell index. -/
def sjoinLeft {G : Type} (inter : G → Rect → Bool) (segs : List (Seg G))
    (cells : List Rect) : List (Nat × Option (Seg G)) :=
  cells.enum.flatMap (fun ic => joinBlock inter segs ic.1 ic.2)

/-- total_spaces of a joined row, with the unmatched row skipped as NaN is by
the pandas groupby sum. -/
def optTotal {G : Type} : Option (Seg G) → Int
  | none => 0
  | some s => s.total_spaces

/-- paid_spaces of a joined row, NaN skipped. -/
def optPaid {G : Type} : Option (Seg G) → Int
  | none => 0
  | some s => s.paid_spaces

/-- has_paid_parking of a joined row, NaN skipped (falsy) by groupby any. -/
def optHas {G : Type} : Option (Seg G) → Bool
  | none => false
  | some s => s.has_paid_parking

/-- joined.groupby(joined.index): the rows of one index group. -/
def groupRows {G : Type} (joined : List (Nat × Option (Seg G))) (i : Nat) :
    List (Option (Seg G)) :=
  (joined.filter (fun r => r.1 == i)).map (fun r => r.2)

/-- The source helper _create_parking_overview: build the grid, left-sjoin the segments,
aggregate per cell index (sum, sum, any), merge back onto the grid, and keep
the cells with positive summed total_spaces. -/
def create_parking_overview {G : Type} (inter : G → Rect → Bool)
    (segs : List (Seg G)) (minx miny maxx maxy g : ℚ) : List OverviewCell :=
  let cells := gridCells minx miny maxx maxy g
  let joined := sjoinLeft inter segs cells
  (cells.enum.map (fun ic =>
    (⟨ic.2, ((groupRows joined ic.1).map optTotal).sum,
      ((groupRows joined ic.1).map optPaid).sum,
      (groupRows joined ic.1).any optHas⟩ : OverviewCell))).filter
    (fun oc => decide (0 < oc.total_spaces))

/-- The per-cell aggregate as the specification describes it: sums and
disjunction over exactly the intersecting segments. -/
def cellSummary {G : Type} (inter : G → Rect → Bool) (segs : List (Seg G))
    (c : Rect) : OverviewCell :=
  ⟨c, ((segMatches inter segs c).map (fun s => s.total_spaces)).sum,
    ((segMatches inter segs c).map (fun s => s.paid_spaces)).sum,
    (segMatches inter segs c).any (fun s => s.has_paid_parking)⟩

/-- Filtering a join block by key keeps everything or nothing. -/
theorem filter_joinBlock {G : Type} (inter : G → Rect → Bool)
    (segs : List (Seg G)) (j i : Nat) (c : Rect) :
    (joinBlock inter segs j c).filter (fun r => r.1 == i)
      = if j = i then joinBlock inter segs j c else [] := by
  by_cases hji : j = i
  · subst hji
    rw [if_pos rfl]
    unfold joinBlock
    split_ifs with hemp
    · simp
    · apply List.filter_eq_self.mpr
      intro a ha
      simp only [List.mem_map] at ha
      obtain ⟨s, -, rfl⟩ := ha
      simp
  · rw [if_neg hji]
    unfold joinBlock
    split_ifs with hemp
    · simp [beq_iff_eq, hji]
    · apply List.filter_eq_nil_iff.mpr
      intro a ha
      simp only [List.mem_map] at ha
      obtain ⟨s, -, rfl⟩ := ha
      simp [beq_iff_eq, hji]

/-- Keys below the enumeration base never occur in the join. -/
theorem sjoin_filter_small {G : Type} (inter : G → Rect → Bool)
    (segs : List (Seg G)) :
    ∀ (cells : List Rect) (n k : Nat), k < n →
      ((cells.enumFrom n).flatMap
          (fun ic => joinBlock inter segs ic.1 ic.2)).filter
        (fun r => r.1 == k) = [] := by
  intro cells
  induction cells with
  | nil => intro n k hk; rfl
  | cons c t ih =>
    intro n k hk
    rw [List.enumFrom_cons, List.flatMap_cons, List.filter_append]
    rw [filter_joinBlock, if_neg (by omega), ih (n + 1) k (by omega)]
    rfl

/-- Filtering the left join by the key n + i extracts exactly the block of
the i-th cell. -/
theorem sjoin_filter_aux {G : Type} (inter : G → Rect → Bool)
    (segs : List (Seg G)) :
    ∀ (cells : List Rect) (n i : Nat),
      ((cells.enumFrom n).flatMap
          (fun ic => joinBlock inter segs ic.1 ic.2)).filter
        (fun r => r.1 == n + i)
      = match cells[i]? with
        | none => []
        | some c => joinBlock inter segs (n + i) c := by
  intro cells
  induction cells with
  | nil => intro n i; rfl
  | cons c t ih =>
    intro n i
    rw [List.enumFrom_cons, List.flatMap_cons, List.filter_append]
    cases i with
    | zero =>
      rw [filter_joinBlock, if_pos (by omega)]
      rw [sjoin_filter_small inter segs t (n + 1) (n + 0) (by omega)]
      simp only [List.append_nil, List.getElem?_cons_zero, Nat.add_zero]
    | succ j =>
      rw [filter_joinBlock, if_neg (by omega), List.nil_append]
      simp only [show n + (j + 1) = n + 1 + j from by omega]
      rw [ih (n + 1) j]
      simp only [List.getElem?_cons_succ]

/-- The group of rows for the i-th cell of the grid: one NaN row when no
segment intersects it, else exactly its intersecting segments. -/
theorem groupRows_eq {G : Type} (inter : G → Rect → Bool) (segs : List (Seg G))
    (cells : List Rect) (i : Nat) (c : Rect) (hc : cells[i]? = some c) :
    groupRows (sjoinLeft inter segs cells) i
      = (if (segMatches inter segs c).isEmpty then [none]
         else (segMatches inter segs c).map some) := by
  unfold groupRows sjoinLeft
  have haux := sjoin_filter_aux inter segs cells 0 i
  rw [hc] at haux
  simp only [Nat.zero_add] at haux
  rw [List.enum, haux]
  unfold joinBlock
  split_ifs with hemp
  · rfl
  · rw [List.map_map]
    rfl

/-- any over a group of matched rows equals any over the segments. -/
theorem any_map_some {G : Type} :
    ∀ (l : List (Seg G)),
      (l.map some).any optHas = l.any (fun s => s.has_paid_parking) := by
  intro l
  induction l with
  | nil => rfl
  | cons s t ih =>
    simp only [List.map_cons, List.any_cons, ih]
    rfl

/-- The per-cell aggregates computed from the join group equal the direct
sums and disjunction over the intersecting segments. -/
theorem cell_values {G : Type} (inter : G → Rect → Bool) (segs : List (Seg G))
    (c : Rect) :
    (((if (segMatches inter segs c).isEmpty then [none]
        else (segMatches inter segs c).map some)).map optTotal).sum
        = ((segMatches inter segs c).map (fun s => s.total_spaces)).sum
    ∧ (((if (segMatches inter segs c).isEmpty then [none]
        else (segMatches inter segs c).map some)).map optPaid).sum
        = ((segMatches inter segs c).map (fun s => s.paid_spaces)).sum
    ∧ ((if (segMatches inter segs c).isEmpty then [none]
        else (segMatches inter segs c).map some)).any optHas
        = (segMatches inter segs c).any (fun s => s.has_paid_parking) := by
  split_ifs with hemp
  · rw [List.isEmpty_iff] at hemp
    rw [hemp]
    refine ⟨by simp [optTotal], by simp [optPaid], by simp [optHas]⟩
  · refine ⟨?_, ?_, ?_⟩
    · rw [List.map_map]
      rfl
    · rw [List.map_map]
      rfl
    · exact any_map_some _

/-- Claim C2: the overview equals the grid cells mapped to their
specification-side per-cell summaries and filtered to positive summed
total_spaces; every output cell has positive summed total_spaces and is the
summary of a grid cell; and every grid cell whose summary has positive summed
total_spaces appears in the output. -/
theorem overview_grid_aggregation {G : Type} (inter : G → Rect → Bool)
    (segs : List (Seg G)) (minx miny maxx maxy g : ℚ) :
    create_parking_overview inter segs minx miny maxx maxy g
      = ((gridCells minx miny maxx maxy g).map (cellSummary inter segs)).filter
          (fun oc => decide (0 < oc.total_spaces))
    ∧ (∀ oc ∈ create_parking_overview inter segs minx miny maxx maxy g,
        0 < oc.total_spaces
        ∧ ∃ c ∈ gridCells minx miny maxx maxy g, oc = cellSummary inter segs c)
    ∧ (∀ c ∈ gridCells minx miny maxx maxy g,
        0 < (cellSummary inter segs c).total_spaces →
          cellSummary inter segs c
            ∈ create_parking_overview inter segs minx miny maxx maxy g) := by
  have hmain : create_parking_overview inter segs minx miny maxx maxy g
      = ((gridCells minx miny maxx maxy g).map (cellSummary inter segs)).filter
          (fun oc => decide (0 < oc.total_spaces)) := by
    simp only [create_parking_overview]
    congr 1
    conv_rhs =>
      rw [← List.enum_map_snd (gridCells minx miny maxx maxy g), List.map_map]
    apply List.map_congr_left
    rintro ⟨i, c⟩ hic
    obtain ⟨-, hlt, hx⟩ := List.mem_enumFrom hic
    simp only [Nat.zero_add] at hlt
    simp only [Nat.sub_zero] at hx
    have hc : (gridCells minx miny maxx maxy g)[i]? = some c := by
      rw [List.getElem?_eq_getElem hlt]
      exact congrArg some hx.symm
    dsimp only [Function.comp]
    rw [groupRows_eq inter segs _ i c hc]
    obtain ⟨h1, h2, h3⟩ := cell_values inter segs c
    rw [h1, h2, h3]
    rfl
  refine ⟨hmain, ?_, ?_⟩
  · intro oc hoc
    rw [hmain, List.mem_filter] at hoc
    obtain ⟨hmem, hpos⟩ := hoc
    rw [List.mem_map] at hmem
    obtain ⟨c, hcmem, rfl⟩ := hmem
    exact ⟨by simpa using hpos, c, hcmem, rfl⟩
  · intro c hcmem hpos
    rw [hmain, List.mem_filter]
    exact ⟨List.mem_map_of_mem _ hcmem, by simpa using hpos⟩

/-- Witness for overview_grid_aggregation: a one-cell grid, one intersecting
segment with two spaces, whose summary cell appears in the overview. -/
theorem overview_grid_aggregation_witness :
    cellSummary (fun (_ : Unit) (_ : Rect) => true) [⟨(), 2, 1, true⟩]
        (mkBox 0 0 1)
      ∈ create_parking_overview (fun (_ : Unit) (_ : Rect) => true)
          [⟨(), 2, 1, true⟩] 0 0 1 1 1 :=
  (overview_grid_aggregation (fun (_ : Unit) (_ : Rect) => true)
      [⟨(), 2, 1, true⟩] 0 0 1 1 1).2.2 (mkBox 0 0 1)
    (by simp [gridCells, arange, mkBox]) (by decide)
